import Mathlib

/-!
Verification of the contract-intelligence-rag ingestion and query pipelines.

This file gives a shallow embedding, in Lean, of the core operations of the
repository — the ingestion ledger (`DatabaseManager`), the ingestion pipeline
(`DocumentIngestor.run_ingestion`), metadata extraction
(`TextUtils.extract_metadata`), the checkpoint writer
(`DocumentIngestor._save_processed_data`), and the query pipeline
(`QueryEngine`) — and proves or refutes the specification's claims about them.

External collaborators (PostgreSQL, the ChromaDB vector index, the PDF loader,
the embedding model and the LLM) are modelled as oracles: their outcomes are
inputs of the embedded functions, while every decision made by repository code
is translated faithfully from the source.
-/

namespace ContractRag

/-! ## Path helpers (model of os.path.basename / os.path.splitext) -/

/-- Split a character list on a separator character (structural, so that the
path helpers evaluate inside the kernel). -/
def splitListOn (sep : Char) : List Char → List (List Char)
  | [] => [[]]
  | c :: cs =>
    match splitListOn sep cs with
    | [] => [[c]]
    | t :: ts => if c = sep then [] :: t :: ts else (c :: t) :: ts

/-- Model of `os.path.basename`: the component after the last slash. -/
def basename (p : String) : String :=
  ⟨(splitListOn '/' p.data).getLastD p.data⟩

/-- Model of `os.path.splitext(s)[0]` on a file name: everything before the
last dot, except that a name whose only dots are leading keeps them
(`.bashrc` has no extension in Python). -/
def splitextRoot (s : String) : String :=
  let parts := splitListOn '.' s.data
  if parts.length ≤ 1 then s
  else if parts.dropLast.all (fun q => q = []) then s
  else ⟨List.intercalate ['.'] parts.dropLast⟩

/-- Model of `os.path.splitext(s)[1]` on a file name. -/
def splitextExt (s : String) : String :=
  let parts := splitListOn '.' s.data
  if parts.length ≤ 1 then ""
  else if parts.dropLast.all (fun q => q = []) then ""
  else ⟨'.' :: parts.getLastD []⟩

/-- `os.path.splitext(path)[1]` on a full path: the extension of the final
path component. -/
def pathExt (p : String) : String :=
  splitextExt (basename p)

/-- Model of `str.lower()` on the ASCII range (file extensions are ASCII). -/
def asciiLower (c : Char) : Char :=
  if 'A' ≤ c ∧ c ≤ 'Z' then Char.ofNat (c.toNat + 32) else c

/-- Model of `str.lower()`. -/
def lowerStr (s : String) : String := ⟨s.data.map asciiLower⟩

/-! ## Exceptions (src/exceptions): one inductive per raised kind. -/

/-- The exception kinds the embedded code can raise.  Each constructor
corresponds to one exception class of `src/exceptions` (carrying the data its
`__init__` stores), plus `typeError` for Python's built-in `TypeError` raised
when a call cannot bind its arguments. -/
inductive PyExc where
  | documentLoading (msg file_path : String)
  | documentSplitting (msg file_path : String)
  | vectorStorage (msg : String)
  | saveData (msg : String)
  | metadataExtraction (msg file_path : String)
  | invalidFileFormat (file_path expected_format : String)
  | typeError (msg : String)
  deriving DecidableEq, Repr

/-- Equality of `Except` values is decidable when both components' are. -/
instance {ε α : Type} [DecidableEq ε] [DecidableEq α] :
    DecidableEq (Except ε α) := fun a b =>
  match a, b with
  | .error e, .error f =>
    if h : e = f then .isTrue (congrArg Except.error h)
    else .isFalse (fun hh => h (Except.error.inj hh))
  | .error _, .ok _ => .isFalse (fun hh => Except.noConfusion hh)
  | .ok _, .error _ => .isFalse (fun hh => Except.noConfusion hh)
  | .ok a, .ok b =>
    if h : a = b then .isTrue (congrArg Except.ok h)
    else .isFalse (fun hh => h (Except.ok.inj hh))

/-- If `takeWhile` stops inside `xs`, appending `ys` changes nothing. -/
theorem takeWhile_append_of_stop {α : Type} {p : α → Bool} {xs : List α}
    (ys : List α) (h : (xs.takeWhile p).length < xs.length) :
    (xs ++ ys).takeWhile p = xs.takeWhile p := by
  induction xs with
  | nil => simp at h
  | cons x xs ih =>
    cases hpx : p x with
    | true =>
      simp only [List.cons_append, List.takeWhile_cons, hpx, ite_true,
        List.length_cons] at h ⊢
      rw [ih (by omega)]
    | false =>
      simp [List.takeWhile_cons, hpx]

namespace DatabaseManager

/-! ## DatabaseManager (src/DatabaseManager.py): the ingestion ledger.

The `document_ingestion` table is modelled as a list of rows plus the next
value of the `id SERIAL` sequence.  `chunks_count` and `error_message` are
nullable columns, hence `Option`. -/

structure LedgerRecord where
  id : Nat
  filename : String
  file_hash : String
  status : String
  chunks_count : Option Nat
  error_message : Option String
  deriving DecidableEq, Repr

structure LedgerState where
  records : List LedgerRecord
  nextId : Nat
  deriving DecidableEq, Repr

/-- `DatabaseManager.register_ingestion` (DatabaseManager.py:61-102): select a
row with this `file_hash`; if one exists return `-1` and change nothing,
otherwise insert a new row with the given status (the source's default
argument is `"PROCESSING"`; call sites pass it implicitly, the model passes it
explicitly) and return the new id. -/
def register_ingestion (st : LedgerState) (filename file_hash status : String) :
    Int × LedgerState :=
  if st.records.any (fun r => r.file_hash == file_hash) then
    (-1, st)
  else
    ((st.nextId : Int),
     ⟨st.records ++ [⟨st.nextId, filename, file_hash, status, none, none⟩],
      st.nextId + 1⟩)

/-- `DatabaseManager.update_ingestion_status` (DatabaseManager.py:104-132):
`UPDATE document_ingestion SET status, chunks_count, error_message WHERE id`.
The source's defaults are `chunks_count=0`, `error_msg=None`; call sites of
the model pass them explicitly. -/
def update_ingestion_status (st : LedgerState) (doc_id : Int) (status : String)
    (chunks_count : Nat) (error_msg : Option String) : LedgerState :=
  ⟨st.records.map (fun r =>
      if (r.id : Int) == doc_id then
        ⟨r.id, r.filename, r.file_hash, status, some chunks_count, error_msg⟩
      else r),
   st.nextId⟩

/-- `DatabaseManager.clean_ingestion_table` (DatabaseManager.py:134-152):
`DELETE FROM document_ingestion;` — removes every row (the SERIAL sequence is
not reset by DELETE). -/
def clean_ingestion_table (st : LedgerState) : LedgerState :=
  ⟨[], st.nextId⟩

/-- `DatabaseManager.create_ingestion_table` (DatabaseManager.py:36-59):
`CREATE TABLE IF NOT EXISTS` — no effect on existing rows. -/
def create_ingestion_table (st : LedgerState) : LedgerState :=
  st

end DatabaseManager

open DatabaseManager

/-- C1: when no ledger record with a fingerprint exists, `register_ingestion`
inserts exactly one new record with status PROCESSING and returns its new id
(not the `-1` sentinel); a second call with the same fingerprint returns `-1`
and performs no insert, so after the two calls exactly one record with that
fingerprint exists. -/
theorem register_ingestion_dedup
    (st : LedgerState) (fn fn₂ fp : String)
    (h : ∀ r ∈ st.records, r.file_hash ≠ fp) :
    let call₁ := register_ingestion st fn fp "PROCESSING"
    let call₂ := register_ingestion call₁.2 fn₂ fp "PROCESSING"
    call₁.1 = (st.nextId : Int) ∧ 0 ≤ call₁.1 ∧
    call₁.2.records.length = st.records.length + 1 ∧
    (∃ r ∈ call₁.2.records,
        r.file_hash = fp ∧ r.status = "PROCESSING" ∧ (r.id : Int) = call₁.1) ∧
    call₂.1 = -1 ∧ call₂.2 = call₁.2 ∧
    call₂.2.records.countP (fun r => r.file_hash == fp) = 1 := by
  have hany : st.records.any (fun r => r.file_hash == fp) = false := by
    rw [List.any_eq_false]
    intro r hr
    simpa using h r hr
  have hcount : st.records.countP (fun r => r.file_hash == fp) = 0 := by
    rw [List.countP_eq_zero]
    intro r hr
    simpa using h r hr
  have e₁ : register_ingestion st fn fp "PROCESSING" =
      ((st.nextId : Int),
       ⟨st.records ++ [⟨st.nextId, fn, fp, "PROCESSING", none, none⟩],
        st.nextId + 1⟩) := by
    unfold register_ingestion
    rw [hany]
    simp
  have hany₂ : (st.records ++
      [(⟨st.nextId, fn, fp, "PROCESSING", none, none⟩ : LedgerRecord)]).any
      (fun r => r.file_hash == fp) = true := by
    simp
  have e₂ : register_ingestion
      ⟨st.records ++ [⟨st.nextId, fn, fp, "PROCESSING", none, none⟩],
       st.nextId + 1⟩ fn₂ fp "PROCESSING" =
      (-1, ⟨st.records ++ [⟨st.nextId, fn, fp, "PROCESSING", none, none⟩],
            st.nextId + 1⟩) := by
    unfold register_ingestion
    rw [hany₂]
    simp
  refine ⟨by rw [e₁], by rw [e₁]; positivity, by rw [e₁]; simp, ?_, ?_, ?_, ?_⟩
  · rw [e₁]
    exact ⟨⟨st.nextId, fn, fp, "PROCESSING", none, none⟩, by simp, rfl, rfl, rfl⟩
  · show (register_ingestion (register_ingestion st fn fp "PROCESSING").2
        fn₂ fp "PROCESSING").1 = -1
    rw [e₁, e₂]
  · show (register_ingestion (register_ingestion st fn fp "PROCESSING").2
        fn₂ fp "PROCESSING").2 = (register_ingestion st fn fp "PROCESSING").2
    rw [e₁, e₂]
  · show (register_ingestion (register_ingestion st fn fp "PROCESSING").2
        fn₂ fp "PROCESSING").2.records.countP (fun r => r.file_hash == fp) = 1
    rw [e₁, e₂]
    simp [List.countP_append, hcount, List.countP_cons]

/-- Witness for C1 at a concrete empty ledger. -/
theorem register_ingestion_dedup_witness :
    let st : LedgerState := ⟨[], 1⟩
    let call₁ := register_ingestion st "a.pdf" "ffff" "PROCESSING"
    let call₂ := register_ingestion call₁.2 "b.pdf" "ffff" "PROCESSING"
    call₁.1 = 1 ∧ call₂.1 = -1 ∧
    call₂.2.records.countP (fun r => r.file_hash == "ffff") = 1 := by
  have h := register_ingestion_dedup ⟨[], 1⟩ "a.pdf" "b.pdf" "ffff"
    (by intro r hr; simp at hr)
  exact ⟨h.1, h.2.2.2.2.1, h.2.2.2.2.2.2⟩

namespace TextUtils

/-! ## TextUtils (src/TextUtils.py): metadata extraction.

The filesystem and the PDF parser are external inputs; `FsFile` records what
the checks of `extract_metadata` observe about the path.  `file_size_kb` is
`round(getsize(path)/1024, 2)`: since 1024 is a power of two, the quotient is
an exact binary float for any realistic size and Python's `round` rounds it
half-to-even to two decimals; the model stores the value in hundredths of a
KB as a natural number. -/

structure PdfInfo where
  author : String
  creator : String
  creation_date : String
  deriving DecidableEq, Repr

/-- What the filesystem and the PDF parser report for the path handed to
`extract_metadata`. -/
structure FsFile where
  pathExists : Bool
  isFile : Bool
  readable : Bool
  sizeBytes : Nat
  /-- outcome of `PdfReader(file_path)` / `reader.metadata` / `reader.pages`:
  an error message, or the (possibly absent) info dictionary with the page
  count. -/
  parse : Except String (Option PdfInfo × Nat)
  deriving Repr

/-- `round(bytes / 1024, 2)` in hundredths of a KB (round half to even). -/
def fileSizeKbCenti (bytes : Nat) : Nat :=
  let n := bytes * 100
  let q := n / 1024
  let r := n % 1024
  if 1024 < 2 * r then q + 1
  else if 2 * r < 1024 then q
  else if q % 2 = 0 then q else q + 1

/-- The dict returned by `TextUtils.extract_metadata` on success. -/
structure DocMetadata where
  source : String
  file_path : String
  ingestion_date : String
  file_size_kb_centi : Nat
  extension : String
  author : Option String
  creator : Option String
  creation_date : Option String
  total_pages : Option Nat
  deriving DecidableEq, Repr

/-- `TextUtils.extract_metadata` (TextUtils.py:39-87), with its body intact:
existence check, is-a-file check, extension check, readability check, then
the base dict, then the parse; a parse failure raises after the base dict was
built (so the dict is discarded).  `now` is `datetime.now().isoformat()`. -/
def extract_metadata (fs : FsFile) (file_path now : String) :
    Except PyExc DocMetadata :=
  if fs.pathExists = false then
    .error (.metadataExtraction ("File not found: " ++ file_path) file_path)
  else if fs.isFile = false then
    .error (.metadataExtraction ("Path is not a file: " ++ file_path) file_path)
  else if lowerStr (pathExt file_path) ≠ ".pdf" then
    .error (.invalidFileFormat file_path ".pdf")
  else if fs.readable = false then
    .error (.metadataExtraction ("File is not readable: " ++ file_path)
      file_path)
  else
    match fs.parse with
    | .error msg => .error (.metadataExtraction msg file_path)
    | .ok (info, pages) =>
      .ok { source := basename file_path
            file_path := file_path
            ingestion_date := now
            file_size_kb_centi := fileSizeKbCenti fs.sizeBytes
            extension := pathExt file_path
            author := info.map (·.author)
            creator := info.map (·.creator)
            creation_date := info.map (·.creation_date)
            total_pages := info.map (fun _ => pages) }

/-- Number of positional parameters of `TextUtils.extract_metadata`
(TextUtils.py:39): `self` and `file_path`. -/
def extract_metadata_params : Nat := 2

/-- Number of positional parameters of `TextUtils.clean_text`
(TextUtils.py:21): `self` and `text`. -/
def clean_text_params : Nat := 2

end TextUtils

open TextUtils

/-- C6: the validation checks of `extract_metadata` run in the order
existence, is-a-file, extension, readability, parse, the first failing check
being terminal (the later observations are unconstrained in each failure
case): a missing path raises the not-found metadata error, a `.txt` path
raises the invalid-format error, and a readable parseable PDF of at least 6
bytes yields a dict whose `source`, `ingestion_date` are set and whose
`file_size_kb` is positive. -/
theorem extract_metadata_validation_order (fs : FsFile) (p now : String) :
    (fs.pathExists = false →
      extract_metadata fs p now =
        .error (.metadataExtraction ("File not found: " ++ p) p)) ∧
    (fs.pathExists = true → fs.isFile = false →
      extract_metadata fs p now =
        .error (.metadataExtraction ("Path is not a file: " ++ p) p)) ∧
    (fs.pathExists = true → fs.isFile = true →
      lowerStr (pathExt p) = ".txt" →
      extract_metadata fs p now = .error (.invalidFileFormat p ".pdf")) ∧
    (fs.pathExists = true → fs.isFile = true →
      lowerStr (pathExt p) = ".pdf" → fs.readable = false →
      extract_metadata fs p now =
        .error (.metadataExtraction ("File is not readable: " ++ p) p)) ∧
    (∀ info pages, fs.pathExists = true → fs.isFile = true →
      lowerStr (pathExt p) = ".pdf" → fs.readable = true →
      fs.parse = .ok (info, pages) → 6 ≤ fs.sizeBytes →
      ∃ m, extract_metadata fs p now = .ok m ∧
        m.source = basename p ∧ m.ingestion_date = now ∧
        0 < m.file_size_kb_centi) := by
  refine ⟨?_, ?_, ?_, ?_, ?_⟩
  · intro h₁
    simp [extract_metadata, h₁]
  · intro h₁ h₂
    simp [extract_metadata, h₁, h₂]
  · intro h₁ h₂ h₃
    simp [extract_metadata, h₁, h₂, h₃]
  · intro h₁ h₂ h₃ h₄
    simp [extract_metadata, h₁, h₂, h₃, h₄]
  · intro info pages h₁ h₂ h₃ h₄ h₅ h₆
    refine ⟨⟨basename p, p, now, fileSizeKbCenti fs.sizeBytes, pathExt p,
        info.map (·.author), info.map (·.creator), info.map (·.creation_date),
        info.map (fun _ => pages)⟩,
      by simp [extract_metadata, h₁, h₂, h₃, h₄, h₅], rfl, rfl, ?_⟩
    show 0 < fileSizeKbCenti fs.sizeBytes
    unfold fileSizeKbCenti
    have h600 : 600 ≤ fs.sizeBytes * 100 := by omega
    rcases Nat.lt_or_ge (fs.sizeBytes * 100) 1024 with hlt | hge
    · have hq : fs.sizeBytes * 100 / 1024 = 0 := Nat.div_eq_of_lt hlt
      have hr : fs.sizeBytes * 100 % 1024 = fs.sizeBytes * 100 :=
        Nat.mod_eq_of_lt hlt
      simp only [hq, hr]
      have : 1024 < 2 * (fs.sizeBytes * 100) := by omega
      simp [this]
    · have hq : 0 < fs.sizeBytes * 100 / 1024 := Nat.div_pos hge (by norm_num)
      simp only []
      split
      · omega
      · split
        · omega
        · split <;> omega

/-- Witness for C6: a missing path, a directory, a `.txt` file, an
unreadable PDF, and a valid 2048-byte PDF. -/
theorem extract_metadata_validation_order_witness :
    (extract_metadata ⟨false, false, false, 0, .error "x"⟩ "gone.pdf" "t" =
      .error (.metadataExtraction "File not found: gone.pdf" "gone.pdf")) ∧
    (extract_metadata ⟨true, false, false, 0, .error "x"⟩ "some/dir" "t" =
      .error (.metadataExtraction "Path is not a file: some/dir" "some/dir")) ∧
    (extract_metadata ⟨true, true, true, 10, .error "x"⟩ "notes.txt" "t" =
      .error (.invalidFileFormat "notes.txt" ".pdf")) ∧
    (extract_metadata ⟨true, true, false, 10, .error "x"⟩ "locked.pdf" "t" =
      .error (.metadataExtraction "File is not readable: locked.pdf"
        "locked.pdf")) ∧
    (∃ m, extract_metadata
        ⟨true, true, true, 2048, .ok (some ⟨"a", "c", "d"⟩, 3)⟩
        "contract.pdf" "t" = .ok m ∧
      m.source = "contract.pdf" ∧ m.ingestion_date = "t" ∧
      0 < m.file_size_kb_centi) := by
  have h₁ := (extract_metadata_validation_order
    ⟨false, false, false, 0, .error "x"⟩ "gone.pdf" "t").1 rfl
  have h₂ := (extract_metadata_validation_order
    ⟨true, false, false, 0, .error "x"⟩ "some/dir" "t").2.1 rfl rfl
  have h₃ := (extract_metadata_validation_order
    ⟨true, true, true, 10, .error "x"⟩ "notes.txt" "t").2.2.1 rfl rfl (by rfl)
  have h₄ := (extract_metadata_validation_order
    ⟨true, true, false, 10, .error "x"⟩ "locked.pdf" "t").2.2.2.1 rfl rfl
    (by rfl) rfl
  have h₅ := (extract_metadata_validation_order
    ⟨true, true, true, 2048, .ok (some ⟨"a", "c", "d"⟩, 3)⟩
    "contract.pdf" "t").2.2.2.2 (some ⟨"a", "c", "d"⟩) 3 rfl rfl (by rfl) rfl
    rfl (by norm_num)
  have hbase : basename "contract.pdf" = "contract.pdf" := rfl
  obtain ⟨m, hm, hs, hdate, hc⟩ := h₅
  exact ⟨h₁, h₂, h₃, h₄, m, hm, by rw [hs, hbase], hdate, hc⟩

namespace DocumentIngestor

/-! ## DocumentIngestor (src copy/DocumentIngestor.py).

`run_ingestion` orchestrates: clean table (the `# TODO` line), create table,
hash, ledger registration, metadata extraction, PDF loading + cleaning,
splitting, SUCCESS/FAILED bookkeeping, checkpoint write, embedding/storage.
The external stages (hashing the file bytes, the metadata call, the PDF
loader, the text splitter, the JSON write, the vector store) are oracles in
`IngestEnv`; every branch and every ledger/ordering decision is the
source's. -/

/-- One entry of `content_per_page` in the checkpoint JSON. -/
structure PageEntry where
  page : Nat
  content : String
  deriving DecidableEq, Repr

/-- The `processed_data` dict of `_save_processed_data`
(DocumentIngestor.py:150-157). -/
structure ProcessedData where
  metadata : List (String × String)
  content_per_page : List PageEntry
  full_text_length : Nat
  deriving DecidableEq, Repr

/-- `DocumentIngestor._save_processed_data` (DocumentIngestor.py:129-170),
pure part: the output path (base name of the source file with a `.json`
extension under `data/processed`) and the JSON payload built from the chunks'
`page_content` (`cleaned_docs` are the chunk texts) and the metadata dict. -/
def save_processed_data (file_path : String) (cleaned_docs : List String)
    (metadata : List (String × String)) : String × ProcessedData :=
  let base_name := basename file_path
  let json_name := splitextRoot base_name ++ ".json"
  let output_path := "data/processed/" ++ json_name
  (output_path,
   ⟨metadata,
    cleaned_docs.enum.map (fun p => ⟨p.1 + 1, p.2⟩),
    (cleaned_docs.map String.length).sum⟩)

/-- The checkpoint directory as a map from path to content; `open(path, "w")`
overwrites whatever was there. -/
def fsWrite (fs : String → Option ProcessedData) (path : String)
    (d : ProcessedData) : String → Option ProcessedData :=
  fun q => if q = path then some d else fs q

/-- Number of positional arguments at the call
`TextUtils.extract_metadata(self.file_path)` (DocumentIngestor.py:75). -/
def extract_metadata_call_args : Nat := 1

/-- Number of positional arguments at the call
`TextUtils.clean_text(doc.page_content)` (DocumentIngestor.py:86). -/
def clean_text_call_args : Nat := 1

/-- Python call binding for a plain (non-static, non-class) method accessed
on the class and called with positional arguments only: if fewer arguments
are supplied than the function's parameters, the call raises `TypeError`
before the body runs; otherwise the body's outcome is returned. -/
def pyCall (params given : Nat) (body : Except PyExc α) : Except PyExc α :=
  if given < params then
    .error (.typeError "missing a required positional argument")
  else body

/-- The observable steps of one `run_ingestion` call, in execution order. -/
inductive StageEvent where
  | cleanTable
  | createTable
  | registered
  | metadataExtracted
  | documentsLoaded
  | documentsSplit
  | statusUpdated (status : String)
  | checkpointSaved
  | vectorsStored
  deriving DecidableEq, Repr

/-- How one `run_ingestion` call ends when no exception is raised: the early
`return` on a hash match, or the final log line. -/
inductive RunOutcome where
  | skipped
  | completed
  deriving DecidableEq, Repr

/-- Outcomes of the external collaborators during one `run_ingestion` call.
`metadataResult` is the outcome of the metadata-extraction call as a whole
(see `run_ingestion_py` for the actual call's binding behaviour). -/
structure IngestEnv where
  file_path : String
  /-- `self._calculate_hash()`: the SHA-256 hex digest of the file bytes. -/
  fileHash : String
  /-- outcome of the metadata-extraction call at DocumentIngestor.py:75. -/
  metadataResult : Except PyExc TextUtils.DocMetadata
  /-- outcome of `PyPDFLoader(...).load()` plus the per-page cleaning loop:
  the cleaned page texts, or the message of the raised exception. -/
  loadResult : Except String (List String)
  /-- outcome of `text_splitter.split_documents(docs)`: the chunk texts, or
  the message of the raised exception. -/
  splitResult : Except String (List String)
  /-- outcome of the JSON checkpoint write in `_save_processed_data`. -/
  saveResult : Except String Unit
  /-- outcome of `chroma_db.add_documents(documents=chunks)`. -/
  storeResult : Except String Unit

/-- Result of one `run_ingestion` call: the returned value or raised
exception, the ledger afterwards, and the trace of steps executed. -/
structure IngestRun where
  result : Except PyExc RunOutcome
  ledger : LedgerState
  trace : List StageEvent
  deriving Repr

/-- `DocumentIngestor.run_ingestion` (DocumentIngestor.py:42-126) with the
metadata call's outcome read from the environment:
1. `clean_ingestion_table()` (the `# TODO` line 62), 2. `create_ingestion_table()`,
3. hash, 4. `register_ingestion`; on `-1` log and return (skip),
5. metadata call, 6. load + clean pages (failure → `DocumentLoadingException`),
7. split (success → `update_ingestion_status SUCCESS` with the chunk count;
failure → `update_ingestion_status FAILED` with the error text, then
`DocumentSplittingException`), 8. `_save_processed_data` (failure →
`SaveDataException`), 9. embed and store (failure →
`VectorStorageException`). -/
def run_ingestion (env : IngestEnv) (st : LedgerState) : IngestRun :=
  let st₁ := clean_ingestion_table st
  let st₂ := create_ingestion_table st₁
  let reg := register_ingestion st₂ (basename env.file_path) env.fileHash
    "PROCESSING"
  let doc_id := reg.1
  let st₃ := reg.2
  let tr := [StageEvent.cleanTable, StageEvent.createTable,
    StageEvent.registered]
  if doc_id = -1 then ⟨.ok .skipped, st₃, tr⟩
  else
    match env.metadataResult with
    | .error e => ⟨.error e, st₃, tr⟩
    | .ok _ =>
      let tr := tr ++ [StageEvent.metadataExtracted]
      match env.loadResult with
      | .error msg => ⟨.error (.documentLoading msg env.file_path), st₃, tr⟩
      | .ok _ =>
        let tr := tr ++ [StageEvent.documentsLoaded]
        match env.splitResult with
        | .error msg =>
          let st₄ := update_ingestion_status st₃ doc_id "FAILED" 0 (some msg)
          ⟨.error (.documentSplitting msg env.file_path), st₄,
           tr ++ [StageEvent.statusUpdated "FAILED"]⟩
        | .ok chunks =>
          let st₄ := update_ingestion_status st₃ doc_id "SUCCESS"
            chunks.length none
          let tr := tr ++ [StageEvent.documentsSplit,
            StageEvent.statusUpdated "SUCCESS"]
          match env.saveResult with
          | .error msg => ⟨.error (.saveData msg), st₄, tr⟩
          | .ok _ =>
            let tr := tr ++ [StageEvent.checkpointSaved]
            match env.storeResult with
            | .error msg => ⟨.error (.vectorStorage msg), st₄, tr⟩
            | .ok _ => ⟨.ok .completed, st₄, tr ++ [StageEvent.vectorsStored]⟩

/-- `run_ingestion` as it actually executes: the metadata stage is the
class-level call `TextUtils.extract_metadata(self.file_path)`, which binds
`env.metadataResult` (what the body would return) through `pyCall` with the
source's parameter and argument counts. -/
def run_ingestion_py (env : IngestEnv) (st : LedgerState) : IngestRun :=
  run_ingestion
    { env with
      metadataResult := pyCall TextUtils.extract_metadata_params
        extract_metadata_call_args env.metadataResult }
    st

end DocumentIngestor

open DocumentIngestor

/-- Pages of the checkpoint entries built from `n`-indexed enumeration. -/
theorem enumFrom_pageEntry_pages (n : Nat) (l : List String) :
    ((List.enumFrom n l).map
      (fun p => (⟨p.1 + 1, p.2⟩ : PageEntry))).map PageEntry.page =
    List.range' (n + 1) l.length := by
  induction l generalizing n with
  | nil => simp [List.enumFrom]
  | cons c cs ih => simp [List.enumFrom, List.range'_succ, ih]

/-- Contents of the checkpoint entries are the chunk texts, in order. -/
theorem enumFrom_pageEntry_contents (n : Nat) (l : List String) :
    ((List.enumFrom n l).map
      (fun p => (⟨p.1 + 1, p.2⟩ : PageEntry))).map PageEntry.content = l := by
  induction l generalizing n with
  | nil => simp [List.enumFrom]
  | cons c cs ih => simp [List.enumFrom, ih]

/-- C8: the checkpoint for a source file is written under the file's base
name with a `.json` extension (overwriting any prior checkpoint at that
path), and reading it back yields `content_per_page` of length `N` with pages
`1, 2, …, N` and contents equal to the chunk texts, and `full_text_length`
equal to the sum of the chunk text lengths. -/
theorem save_processed_data_roundtrip
    (fs : String → Option ProcessedData) (file_path : String)
    (docs : List String) (md : List (String × String)) :
    let out := save_processed_data file_path docs md
    let fs' := fsWrite fs out.1 out.2
    out.1 = "data/processed/" ++ splitextRoot (basename file_path) ++
      ".json" ∧
    fs' out.1 = some out.2 ∧
    out.2.content_per_page.length = docs.length ∧
    out.2.content_per_page.map PageEntry.page = List.range' 1 docs.length ∧
    out.2.content_per_page.map PageEntry.content = docs ∧
    out.2.full_text_length = (docs.map String.length).sum ∧
    out.2.metadata = md := by
  refine ⟨rfl, by simp [fsWrite], by simp [save_processed_data], ?_, ?_, rfl,
    rfl⟩
  · show ((List.enum docs).map
        (fun p => (⟨p.1 + 1, p.2⟩ : PageEntry))).map PageEntry.page =
      List.range' 1 docs.length
    rw [List.enum]
    exact enumFrom_pageEntry_pages 0 docs
  · show ((List.enum docs).map
        (fun p => (⟨p.1 + 1, p.2⟩ : PageEntry))).map PageEntry.content = docs
    rw [List.enum]
    exact enumFrom_pageEntry_contents 0 docs

/-- C10: `TextUtils.clean_text` and `TextUtils.extract_metadata` each take
two positional parameters (`self` plus the payload), while `run_ingestion`
invokes them on the class with a single positional argument; the metadata
call therefore cannot bind its parameters and every `run_ingestion` that
passes the dedup check raises `TypeError` there — the trace stops at
registration, so loading, splitting, checkpointing and storage are never
reached (with the table cleaned first, the dedup check in fact always
passes). -/
theorem run_ingestion_raises_type_error (env : IngestEnv) (st : LedgerState) :
    TextUtils.extract_metadata_params = 2 ∧
    extract_metadata_call_args = 1 ∧
    TextUtils.clean_text_params = 2 ∧
    clean_text_call_args = 1 ∧
    (run_ingestion_py env st).result =
      .error (.typeError "missing a required positional argument") ∧
    (run_ingestion_py env st).trace =
      [.cleanTable, .createTable, .registered] := by
  have hne : ¬((st.nextId : Int) = -1) := by omega
  have hreg : register_ingestion ⟨[], st.nextId⟩ (basename env.file_path)
      env.fileHash "PROCESSING" =
      ((st.nextId : Int),
       ⟨[⟨st.nextId, basename env.file_path, env.fileHash, "PROCESSING",
          none, none⟩], st.nextId + 1⟩) := by
    unfold register_ingestion
    simp
  refine ⟨rfl, rfl, rfl, rfl, ?_, ?_⟩ <;>
    simp [run_ingestion_py, run_ingestion, clean_ingestion_table,
      create_ingestion_table, hreg, hne, pyCall,
      TextUtils.extract_metadata_params, extract_metadata_call_args]

/-- C2 (refuted; the code deletes the ledger): `run_ingestion` begins with
`clean_ingestion_table()` (DocumentIngestor.py:62, marked `# TODO`), so a
ledger holding a SUCCESS record for fingerprint "aabb" loses that record when
the very same fingerprint is ingested again; the run is not skipped (the
dedup check can never fire on the emptied table) and afterwards the only
record is the freshly inserted PROCESSING one. -/
theorem run_ingestion_deletes_prior_record :
    let prior : LedgerRecord :=
      ⟨1, "contract.pdf", "aabb", "SUCCESS", some 7, none⟩
    let st : LedgerState := ⟨[prior], 2⟩
    let env : IngestEnv :=
      ⟨"data/raw/contract.pdf", "aabb", .error (.typeError "m"), .ok [],
       .ok [], .ok (), .ok ()⟩
    (run_ingestion_py env st).trace.head? = some .cleanTable ∧
    (run_ingestion_py env st).result ≠ .ok .skipped ∧
    prior ∉ (run_ingestion_py env st).ledger.records ∧
    (run_ingestion_py env st).ledger.records.countP
      (fun r => r.status == "SUCCESS") = 0 ∧
    (run_ingestion_py env st).ledger.records =
      [⟨2, "contract.pdf", "aabb", "PROCESSING", none, none⟩] := by
  decide

/-- C3: once the dedup check passes and metadata and loading succeed, a
successful split marks the run's ledger record SUCCESS with the chunk count,
and that transition happens strictly before any checkpoint or storage event
(so the record stays SUCCESS whatever the checkpoint and storage outcomes,
including a storage failure); a failed split marks the record FAILED with the
error text and the call raises `DocumentSplittingException`. -/
theorem success_marked_before_checkpoint_and_storage
    (env : IngestEnv) (st : LedgerState) (m : TextUtils.DocMetadata)
    (docs : List String)
    (hm : env.metadataResult = .ok m) (hl : env.loadResult = .ok docs) :
    (∀ chunks, env.splitResult = .ok chunks →
      (∃ r ∈ (run_ingestion env st).ledger.records,
        r.id = st.nextId ∧ r.status = "SUCCESS" ∧
        r.chunks_count = some chunks.length) ∧
      StageEvent.statusUpdated "SUCCESS" ∈ (run_ingestion env st).trace ∧
      StageEvent.checkpointSaved ∉
        (run_ingestion env st).trace.takeWhile
          (fun e => !(e == StageEvent.statusUpdated "SUCCESS")) ∧
      StageEvent.vectorsStored ∉
        (run_ingestion env st).trace.takeWhile
          (fun e => !(e == StageEvent.statusUpdated "SUCCESS"))) ∧
    (∀ msg, env.splitResult = .error msg →
      (run_ingestion env st).result =
        .error (.documentSplitting msg env.file_path) ∧
      ∃ r ∈ (run_ingestion env st).ledger.records,
        r.id = st.nextId ∧ r.status = "FAILED" ∧
        r.error_message = some msg) := by
  have hne : ¬((st.nextId : Int) = -1) := by omega
  have hreg : register_ingestion ⟨[], st.nextId⟩ (basename env.file_path)
      env.fileHash "PROCESSING" =
      ((st.nextId : Int),
       ⟨[⟨st.nextId, basename env.file_path, env.fileHash, "PROCESSING",
          none, none⟩], st.nextId + 1⟩) := by
    unfold register_ingestion
    simp
  constructor
  · intro chunks hsplit
    have hrun : run_ingestion env st =
        ⟨match env.saveResult with
         | .error msg => .error (.saveData msg)
         | .ok _ =>
            match env.storeResult with
            | .error msg => .error (.vectorStorage msg)
            | .ok _ => .ok .completed,
         ⟨[⟨st.nextId, basename env.file_path, env.fileHash, "SUCCESS",
            some chunks.length, none⟩], st.nextId + 1⟩,
         [StageEvent.cleanTable, StageEvent.createTable,
          StageEvent.registered, StageEvent.metadataExtracted,
          StageEvent.documentsLoaded, StageEvent.documentsSplit,
          StageEvent.statusUpdated "SUCCESS"] ++
         (match env.saveResult with
          | .error _ => []
          | .ok _ =>
            [StageEvent.checkpointSaved] ++
            (match env.storeResult with
             | .error _ => []
             | .ok _ => [StageEvent.vectorsStored]))⟩ := by
      simp only [run_ingestion, clean_ingestion_table, create_ingestion_table,
        hreg, hm, hl, hsplit, hne, if_false, update_ingestion_status]
      rcases env.saveResult with msg | u <;>
        rcases env.storeResult with msg' | u' <;> simp
    have hled := congrArg IngestRun.ledger hrun
    have htr := congrArg IngestRun.trace hrun
    simp only [] at hled htr
    refine ⟨?_, ?_, ?_, ?_⟩
    · rw [hled]
      exact ⟨⟨st.nextId, basename env.file_path, env.fileHash, "SUCCESS",
        some chunks.length, none⟩, by simp, rfl, rfl, rfl⟩
    · rw [htr]
      refine List.mem_append_left _ ?_
      decide
    · rw [htr, takeWhile_append_of_stop _ (by decide)]
      decide
    · rw [htr, takeWhile_append_of_stop _ (by decide)]
      decide
  · intro msg hsplit
    have hrun : run_ingestion env st =
        ⟨.error (.documentSplitting msg env.file_path),
         ⟨[⟨st.nextId, basename env.file_path, env.fileHash, "FAILED",
            some 0, some msg⟩], st.nextId + 1⟩,
         [StageEvent.cleanTable, StageEvent.createTable,
          StageEvent.registered, StageEvent.metadataExtracted,
          StageEvent.documentsLoaded,
          StageEvent.statusUpdated "FAILED"]⟩ := by
      simp only [run_ingestion, clean_ingestion_table, create_ingestion_table,
        hreg, hm, hl, hsplit, hne, if_false, update_ingestion_status]
      simp
    rw [hrun]
    exact ⟨rfl, ⟨st.nextId, basename env.file_path, env.fileHash, "FAILED",
      some 0, some msg⟩, by simp, rfl, rfl, rfl⟩

/-- Witness for C3: a run whose split yields two chunks, with storage
failing, and a run whose split fails with message "boom". -/
theorem success_marked_before_checkpoint_and_storage_witness :
    let md : TextUtils.DocMetadata :=
      ⟨"a.pdf", "a.pdf", "t", 100, ".pdf", none, none, none, none⟩
    let envOk : IngestEnv :=
      ⟨"a.pdf", "ff", .ok md, .ok ["p1"], .ok ["c1", "c2"], .ok (),
       .error "index down"⟩
    let envBad : IngestEnv :=
      ⟨"a.pdf", "ff", .ok md, .ok ["p1"], .error "boom", .ok (), .ok ()⟩
    let st : LedgerState := ⟨[], 1⟩
    (∃ r ∈ (run_ingestion envOk st).ledger.records,
      r.id = 1 ∧ r.status = "SUCCESS" ∧ r.chunks_count = some 2) ∧
    StageEvent.statusUpdated "SUCCESS" ∈ (run_ingestion envOk st).trace ∧
    (run_ingestion envBad st).result =
      .error (.documentSplitting "boom" "a.pdf") ∧
    (∃ r ∈ (run_ingestion envBad st).ledger.records,
      r.id = 1 ∧ r.status = "FAILED" ∧ r.error_message = some "boom") := by
  intro md envOk envBad st
  have h₁ := success_marked_before_checkpoint_and_storage envOk st md ["p1"]
    rfl rfl
  have h₂ := success_marked_before_checkpoint_and_storage envBad st md ["p1"]
    rfl rfl
  obtain ⟨hrec, htr, -, -⟩ := h₁.1 ["c1", "c2"] rfl
  obtain ⟨hres, hrec'⟩ := h₂.2 "boom" rfl
  exact ⟨hrec, htr, hres, hrec'⟩

namespace App

/-! ## App (src/App.py): the batch driver. -/

/-- The exception kinds listed in `process_document`'s `except` clause
(App.py:77-78): `DocumentLoadingException`, `DocumentSplittingException`,
`VectorStorageException`, `SaveDataException`.  Anything else propagates. -/
def caught : PyExc → Bool
  | .documentLoading _ _ => true
  | .documentSplitting _ _ => true
  | .vectorStorage _ => true
  | .saveData _ => true
  | _ => false

/-- `App.process_document` (App.py:58-80): run the ingestion for one file
(its outcome is the input); return `True` on success, `False` when one of
the four listed exception kinds was raised, and let any other exception
propagate. -/
def process_document (outcome : Except PyExc Unit) : Except PyExc Bool :=
  match outcome with
  | .ok _ => .ok true
  | .error e => if caught e then .ok false else .error e

/-- The `for file_path in pdf_files` loop of `App.run` (App.py:110-114) with
its `successful`/`failed` accumulators; an exception escaping
`process_document` aborts the loop and propagates. -/
def runLoop (successful failed : Nat) :
    List (Except PyExc Unit) → Except PyExc (Nat × Nat)
  | [] => .ok (successful, failed)
  | o :: rest =>
    match process_document o with
    | .ok true => runLoop (successful + 1) failed rest
    | .ok false => runLoop successful (failed + 1) rest
    | .error e => .error e

/-- `App.run` (App.py:82-119) over the per-file ingestion outcomes: counts
successes and failures (the empty-directory early return also reports no
counts). -/
def run (outcomes : List (Except PyExc Unit)) : Except PyExc (Nat × Nat) :=
  runLoop 0 0 outcomes

end App

/-- Did this file's ingestion finish without an exception? -/
def isSuccess (o : Except PyExc Unit) : Bool :=
  match o with
  | .ok _ => true
  | .error _ => false

/-- `App.runLoop` counts oks and caught errors when every error in the list
is of a caught kind. -/
theorem runLoop_counts (l : List (Except PyExc Unit)) :
    ∀ s f, (∀ e, Except.error e ∈ l → App.caught e = true) →
    App.runLoop s f l =
      .ok (s + l.countP isSuccess,
           f + l.countP (fun o => !isSuccess o)) := by
  induction l with
  | nil => intro s f _; simp [App.runLoop]
  | cons o rest ih =>
    intro s f h
    have hrest : ∀ e, Except.error e ∈ rest → App.caught e = true :=
      fun e he => h e (List.mem_cons_of_mem _ he)
    rcases o with e | u
    · have hc : App.caught e = true := h e (List.mem_cons_self _ _)
      simp only [App.runLoop, App.process_document, hc, ite_true]
      rw [ih _ _ hrest]
      have h₁ : isSuccess (Except.error e) = false := rfl
      have h₂ : (!isSuccess (Except.error e)) = true := rfl
      simp [List.countP_cons, h₁, h₂, Except.ok.injEq, Prod.mk.injEq]
      omega
    · simp only [App.runLoop, App.process_document]
      rw [ih _ _ hrest]
      have h₁ : isSuccess (Except.ok u) = true := rfl
      have h₂ : (!isSuccess (Except.ok u)) = false := rfl
      simp [List.countP_cons, h₁, h₂, Except.ok.injEq, Prod.mk.injEq]
      omega

/-- C4 counterexample: the claim fails as stated — a
`MetadataExtractionException` (part of the project's single exception
taxonomy, raised by the metadata stage of the pipeline) is not among the
kinds `process_document` catches, so it propagates out of `process_document`
and `run` aborts without processing the rest of the batch: with a first file
raising it and a second file that would succeed, `run` ends in the exception
instead of a success/failure count. -/
theorem batch_aborts_on_metadata_exception :
    App.process_document
      (.error (.metadataExtraction "File not found: x.pdf" "x.pdf")) =
      .error (.metadataExtraction "File not found: x.pdf" "x.pdf") ∧
    App.run [.error (.metadataExtraction "File not found: x.pdf" "x.pdf"),
             .ok ()] =
      .error (.metadataExtraction "File not found: x.pdf" "x.pdf") := by
  decide

/-- C4 (amended): whenever ingestion of a file raises one of the four
ingestor-stage exception kinds (loading, splitting, vector-storage,
checkpoint-save), `process_document` returns `False` instead of propagating,
and a batch all of whose failures are of those kinds is processed to the
end, counting successes and failures; exceptions outside those kinds (e.g.
metadata or database errors) propagate and abort the batch. -/
theorem process_document_catches_stage_kinds
    (outcomes : List (Except PyExc Unit))
    (h : ∀ e, Except.error e ∈ outcomes → App.caught e = true) :
    (∀ e, App.caught e = true →
      App.process_document (.error e) = .ok false) ∧
    App.run outcomes =
      .ok (outcomes.countP isSuccess,
           outcomes.countP (fun o => !isSuccess o)) := by
  constructor
  · intro e he
    simp [App.process_document, he]
  · show App.runLoop 0 0 outcomes = _
    rw [runLoop_counts outcomes 0 0 h]
    simp

/-- Witness for C4's amended theorem: one success, one loading failure, one
checkpoint failure — the batch runs to completion with counts (1, 2). -/
theorem process_document_catches_stage_kinds_witness :
    App.process_document (.error (.vectorStorage "index down")) = .ok false ∧
    App.run [.ok (), .error (.documentLoading "bad pdf" "a.pdf"),
             .error (.saveData "disk full")] = .ok (1, 2) := by
  have h := process_document_catches_stage_kinds
    [.ok (), .error (.documentLoading "bad pdf" "a.pdf"),
     .error (.saveData "disk full")]
    (by
      intro e he
      simp only [List.mem_cons, List.not_mem_nil, or_false] at he
      rcases he with h | h | h
      · exact absurd h (by simp)
      · rw [Except.error.inj h]; rfl
      · rw [Except.error.inj h]; rfl)
  exact ⟨h.1 (.vectorStorage "index down") rfl, h.2.trans (by decide)⟩

namespace QueryEngine

/-! ## QueryEngine (src copy/QueryEngine.py): retrieval + generation.

ChromaDB and the Groq LLM are oracles; the exception wrapping, the prompt
assembly and the sequencing are the source's. -/

/-- The exception kinds of `src copy/exceptions/QueryEngineException.py`
raised by the query path.  `ragQuery` wraps the exception `rag_query`
caught. -/
inductive QEExc where
  | documentRetrieve (query cause : String)
  | modelResponse (query cause : String)
  | ragQuery (query : String) (cause : QEExc)
  deriving DecidableEq, Repr

/-- One retrieved document as formatted by `retrieve_similar_documents`
(QueryEngine.py:80-84). -/
structure RetrievedDoc where
  content : String
  distance : Option Int
  deriving DecidableEq, Repr

/-- The two messages of the `ChatPromptTemplate` built at
QueryEngine.py:119-122, after substituting `{context}` and `{question}`. -/
structure Prompt where
  system : String
  human : String
  deriving DecidableEq, Repr

/-- The system message (QueryEngine.py:117). -/
def system_prompt : String :=
  "You are a legal assistant. Use the following context to answer the " ++
  "question. If you don\x27t know, say you don\x27t know."

/-- The `"\n\n".join(f"Document {i+1}:\n{content}")` context block
(QueryEngine.py:112-115), built from an enumeration starting at `n`. -/
def contextBlockFrom (n : Nat) : List String → String
  | [] => ""
  | c :: rest =>
    "Document " ++ toString (n + 1) ++ ":\n" ++ c ++
    (if rest.isEmpty then "" else "\n\n" ++ contextBlockFrom (n + 1) rest)

/-- The full context block (enumeration starts at 0). -/
def contextBlock (contents : List String) : String :=
  contextBlockFrom 0 contents

/-- Outcomes of the external services during one query. -/
structure QueryEnv where
  /-- outcome of the ChromaDB collection lookup + embedding + vector query
  (QueryEngine.py:67-84): the formatted documents, or the message of the
  exception `retrieve_similar_documents` catches. -/
  retrieveResult : Except String (List RetrievedDoc)
  /-- behaviour of `chain.invoke` (QueryEngine.py:126-129): for a prompt,
  the model's `response.content`, or the message of the exception
  `generate_llm_response` catches. -/
  llm : Prompt → Except String String

/-- `QueryEngine.retrieve_similar_documents` (QueryEngine.py:46-91): returns
the formatted documents, wrapping any failure in
`DocumentRetrieveException`. -/
def retrieve_similar_documents (env : QueryEnv) (query : String) :
    Except QEExc (List RetrievedDoc) :=
  match env.retrieveResult with
  | .ok docs => .ok docs
  | .error msg => .error (.documentRetrieve query msg)

/-- Result of `generate_llm_response`: the returned content (or wrapped
exception), the prompt sent, and how many times the model was invoked. -/
structure GenRun where
  result : Except QEExc String
  prompt : Prompt
  llmCalls : Nat
  deriving Repr

/-- `QueryEngine.generate_llm_response` (QueryEngine.py:93-136): build the
context block, fill the fixed two-message template, invoke the model once
through the chain, and return `response.content` as is; any failure is
wrapped in `ModelResponseException`. -/
def generate_llm_response (env : QueryEnv) (query : String)
    (context : List RetrievedDoc) : GenRun :=
  let context_str := contextBlock (context.map (·.content))
  let prompt : Prompt :=
    ⟨system_prompt, "Context:\n" ++ context_str ++ "\n\nQuestion: " ++ query⟩
  match env.llm prompt with
  | .ok content => ⟨.ok content, prompt, 1⟩
  | .error msg => ⟨.error (.modelResponse query msg), prompt, 1⟩

/-- The `result` dict built by `rag_query` (QueryEngine.py:169-174). -/
structure RagResult where
  query : String
  context : List RetrievedDoc
  response : String
  num_documents_retrieved : Nat
  deriving DecidableEq, Repr

/-- Which of the two stages ran, in order. -/
inductive QueryEvent where
  | retrieveCalled
  | generateCalled
  deriving DecidableEq, Repr

/-- `QueryEngine.rag_query` (QueryEngine.py:138-181): retrieve, then
generate, then assemble the result dict; any exception of either stage is
caught and wrapped in `RAGQueryException`. -/
def rag_query (env : QueryEnv) (query : String) :
    Except QEExc RagResult × List QueryEvent :=
  match retrieve_similar_documents env query with
  | .error e => (.error (.ragQuery query e), [.retrieveCalled])
  | .ok context =>
    match (generate_llm_response env query context).result with
    | .error e =>
      (.error (.ragQuery query e), [.retrieveCalled, .generateCalled])
    | .ok response =>
      (.ok ⟨query, context, response, context.length⟩,
       [.retrieveCalled, .generateCalled])

end QueryEngine

open QueryEngine

/-- C7: `rag_query` runs retrieval then generation strictly sequentially;
a retrieval failure aborts the call with `RAGQueryException` wrapping the
`DocumentRetrieveException` and generation is never invoked; a generation
failure aborts with `RAGQueryException` wrapping the
`ModelResponseException`; only when both stages succeed is a full result
returned — never a partial one. -/
theorem rag_query_sequential_failfast (env : QueryEnv) (q : String) :
    (∀ msg, env.retrieveResult = .error msg →
      rag_query env q =
        (.error (.ragQuery q (.documentRetrieve q msg)),
         [QueryEvent.retrieveCalled])) ∧
    (∀ docs msg, env.retrieveResult = .ok docs →
      (generate_llm_response env q docs).result =
        .error (.modelResponse q msg) →
      (rag_query env q).1 = .error (.ragQuery q (.modelResponse q msg))) ∧
    (∀ docs resp, env.retrieveResult = .ok docs →
      (generate_llm_response env q docs).result = .ok resp →
      (rag_query env q).1 = .ok ⟨q, docs, resp, docs.length⟩ ∧
      (rag_query env q).2 =
        [QueryEvent.retrieveCalled, QueryEvent.generateCalled]) := by
  refine ⟨?_, ?_, ?_⟩
  · intro msg h
    simp [rag_query, retrieve_similar_documents, h]
  · intro docs msg h hg
    simp [rag_query, retrieve_similar_documents, h, hg]
  · intro docs resp h hg
    simp [rag_query, retrieve_similar_documents, h, hg]

/-- Witness for C7: an unreachable index, a failing model, and a successful
round trip over one retrieved document. -/
theorem rag_query_sequential_failfast_witness :
    let doc : RetrievedDoc := ⟨"clause", some 0⟩
    let envDown : QueryEnv := ⟨.error "index unreachable", fun _ => .ok "a"⟩
    let envLlmBad : QueryEnv := ⟨.ok [doc], fun _ => .error "rate limit"⟩
    let envOk : QueryEnv := ⟨.ok [doc], fun _ => .ok "the answer"⟩
    rag_query envDown "q" =
      (.error (.ragQuery "q" (.documentRetrieve "q" "index unreachable")),
       [QueryEvent.retrieveCalled]) ∧
    (rag_query envLlmBad "q").1 =
      .error (.ragQuery "q" (.modelResponse "q" "rate limit")) ∧
    (rag_query envOk "q").1 = .ok ⟨"q", [doc], "the answer", 1⟩ := by
  intro doc envDown envLlmBad envOk
  refine ⟨(rag_query_sequential_failfast envDown "q").1 "index unreachable"
    rfl, ?_, ?_⟩
  · exact (rag_query_sequential_failfast envLlmBad "q").2.1 [doc]
      "rate limit" rfl (by rfl)
  · exact ((rag_query_sequential_failfast envOk "q").2.2 [doc]
      "the answer" rfl (by rfl)).1

/-- Model of stripping surrounding whitespace (`str.strip()` /
`TextUtils.format_response`): drop whitespace from both ends. -/
def pyStrip (s : String) : String :=
  ⟨((s.data.dropWhile Char.isWhitespace).reverse.dropWhile
      Char.isWhitespace).reverse⟩

/-- C9 counterexample: `generate_llm_response` returns `response.content`
as produced by the model, not trimmed — when the model's output carries
surrounding whitespace, the returned text keeps it, refuting the claim that
the output is returned trimmed of surrounding whitespace. -/
theorem generate_llm_response_not_trimmed :
    let env : QueryEnv := ⟨.ok [], fun _ => .ok "  padded answer  "⟩
    (generate_llm_response env "q" []).result = .ok "  padded answer  " ∧
    pyStrip "  padded answer  " = "padded answer" ∧
    (generate_llm_response env "q" []).result ≠
      .ok (pyStrip "  padded answer  ") := by
  refine ⟨rfl, by decide, ?_⟩
  intro h
  have h' : "  padded answer  " = pyStrip "  padded answer  " :=
    Except.ok.inj h
  rw [show pyStrip "  padded answer  " = "padded answer" from by decide]
    at h'
  exact absurd h' (by decide)

/-- C9 (amended): `generate_llm_response` concatenates the context entries
in retrieval order, each under its 1-based positional label
`Document i:`, joined by blank lines; it puts that block, the fixed system
instruction and the user question into a single two-message prompt, invokes
the language model exactly once, and returns the model's text output
verbatim — without trimming surrounding whitespace (a model failure is
wrapped in `ModelResponseException`); the empty context is legal and yields
an empty context block. -/
theorem generate_llm_response_prompt_assembly (env : QueryEnv) (q : String)
    (context : List RetrievedDoc) :
    let run := generate_llm_response env q context
    run.llmCalls = 1 ∧
    run.prompt.system = system_prompt ∧
    run.prompt.human =
      "Context:\n" ++ contextBlock (context.map (·.content)) ++
      "\n\nQuestion: " ++ q ∧
    (∀ content, env.llm run.prompt = .ok content →
      run.result = .ok content) ∧
    (∀ msg, env.llm run.prompt = .error msg →
      run.result = .error (.modelResponse q msg)) ∧
    contextBlock [] = "" ∧
    (∀ n c rest, contextBlockFrom n (c :: rest) =
      "Document " ++ toString (n + 1) ++ ":\n" ++ c ++
      (if rest = [] then "" else "\n\n" ++ contextBlockFrom (n + 1) rest)) := by
  have hblock : ∀ (n : Nat) (c : String) (rest : List String),
      contextBlockFrom n (c :: rest) =
      "Document " ++ toString (n + 1) ++ ":\n" ++ c ++
      (if rest = [] then "" else "\n\n" ++ contextBlockFrom (n + 1) rest) := by
    intro n c rest
    cases rest <;> simp [contextBlockFrom]
  rcases hllm : env.llm ⟨system_prompt,
      "Context:\n" ++ contextBlock (context.map (·.content)) ++
      "\n\nQuestion: " ++ q⟩ with msg | content
  · refine ⟨?_, ?_, ?_, ?_, ?_, rfl, hblock⟩ <;>
      simp only [generate_llm_response, hllm]
    · intro c hc
      exact Except.noConfusion hc
    · intro m hm
      rw [Except.error.inj hm]
  · refine ⟨?_, ?_, ?_, ?_, ?_, rfl, hblock⟩ <;>
      simp only [generate_llm_response, hllm]
    · intro c hc
      rw [Except.ok.inj hc]
    · intro m hm
      exact Except.noConfusion hm

/-- Witness for C9's amended theorem: two retrieved documents and a model
that echoes the human message it received. -/
theorem generate_llm_response_prompt_assembly_witness :
    let env : QueryEnv := ⟨.ok [], fun p => .ok ("model saw: " ++ p.human)⟩
    let run := generate_llm_response env "Q"
      [⟨"alpha", none⟩, ⟨"beta", some 1⟩]
    run.llmCalls = 1 ∧
    run.prompt.human =
      "Context:\nDocument 1:\nalpha\n\nDocument 2:\nbeta\n\nQuestion: Q" ∧
    run.result = .ok ("model saw: " ++ run.prompt.human) := by
  intro env run
  have h := generate_llm_response_prompt_assembly env "Q"
    [⟨"alpha", none⟩, ⟨"beta", some 1⟩]
  exact ⟨h.1, h.2.2.1.trans (by decide), h.2.2.2.1 _ rfl⟩

namespace Chunker

/-! ## Chunker (spec §4.4). -/

/-- Modelled from the spec: the splitting algorithm itself lives in
`langchain_text_splitters.RecursiveCharacterTextSplitter`, outside this
repository — DocumentIngestor.py:96 only configures `chunk_size=1000` and
`chunk_overlap=150`.  Spec §4.4 describes it as a greedy sliding-window
split: consecutive windows of `window` units, each subsequent window
starting `window - overlap` units after the previous window's start, until
the remaining text is shorter than one window, which becomes the final
window; empty input yields an empty sequence.  The `window ≤ overlap` guard
only serves totality (the spec requires `O < W`, and the configured values
satisfy it). -/
def splitWindows (window overlap : Nat) (t : List Char) : List (List Char) :=
  if _h₀ : t.length = 0 then []
  else if _h₁ : t.length ≤ window then [t]
  else if _h₂ : window ≤ overlap then [t]
  else t.take window :: splitWindows window overlap (t.drop (window - overlap))
termination_by t.length
decreasing_by simp only [List.length_drop]; omega

/-- Number of chunks at the configured parameters `window = 1000`,
`overlap = 150`: `0` for empty text, `1` for text up to one window, and
`⌈(L - 150) / 850⌉ = (L - 150 + 849) / 850` beyond. -/
theorem splitWindows_length : ∀ (t : List Char),
    (splitWindows 1000 150 t).length =
      if t.length = 0 then 0
      else if t.length ≤ 1000 then 1
      else (t.length - 150 + 849) / 850 := by
  suffices H : ∀ (n : Nat) (t : List Char), t.length = n →
      (splitWindows 1000 150 t).length =
        if t.length = 0 then 0
        else if t.length ≤ 1000 then 1
        else (t.length - 150 + 849) / 850 by
    intro t
    exact H t.length t rfl
  intro n
  induction n using Nat.strong_induction_on with
  | _ n ih =>
    intro t ht
    by_cases h₀ : t.length = 0
    · simp [splitWindows, h₀]
    · by_cases h₁ : t.length ≤ 1000
      · simp [splitWindows, h₀, h₁]
      · have hstep : splitWindows 1000 150 t =
            t.take 1000 :: splitWindows 1000 150 (t.drop 850) := by
          rw [splitWindows]
          simp [h₀, h₁]
        have hlen : (t.drop 850).length = t.length - 850 := by
          simp
        have hih := ih (t.length - 850) (by omega) (t.drop 850) hlen
        rw [hstep, List.length_cons, hih, hlen]
        have h1000 : 1000 < t.length := by omega
        by_cases h₂ : t.length - 850 ≤ 1000
        · have hz : ¬(t.length - 850 = 0) := by omega
          simp only [hz, if_false, h₂, if_true, h₀, h₁]
          omega
        · have hz : ¬(t.length - 850 = 0) := by omega
          simp only [hz, if_false, h₂, h₀, h₁]
          omega

/-- The first chunk of a split of nonempty text starts with the text's
first 150 units. -/
theorem splitWindows_head_take (t : List Char) (h : t.length ≠ 0) :
    ∃ b, (splitWindows 1000 150 t).head? = some b ∧
      b.take 150 = t.take 150 := by
  by_cases h₁ : t.length ≤ 1000
  · refine ⟨t, ?_, rfl⟩
    rw [splitWindows]
    simp [h, h₁]
  · refine ⟨t.take 1000, ?_, ?_⟩
    · rw [splitWindows]
      simp [h, h₁]
    · rw [List.take_take]
      norm_num

/-- At the configured parameters, each chunk's last 150 units are the next
chunk's first 150 units: consecutive chunks overlap by exactly 150. -/
theorem splitWindows_chain : ∀ (t : List Char),
    List.Chain'
      (fun a b => a.drop 850 = b.take 150 ∧ (a.drop 850).length = 150)
      (splitWindows 1000 150 t) := by
  suffices H : ∀ (n : Nat) (t : List Char), t.length = n →
      List.Chain'
        (fun a b => a.drop 850 = b.take 150 ∧ (a.drop 850).length = 150)
        (splitWindows 1000 150 t) by
    intro t
    exact H t.length t rfl
  intro n
  induction n using Nat.strong_induction_on with
  | _ n ih =>
    intro t ht
    by_cases h₀ : t.length = 0
    · rw [splitWindows]
      simp [h₀]
    · by_cases h₁ : t.length ≤ 1000
      · rw [splitWindows]
        simp [h₀, h₁]
      · have hstep : splitWindows 1000 150 t =
            t.take 1000 :: splitWindows 1000 150 (t.drop 850) := by
          rw [splitWindows]
          simp [h₀, h₁]
        have hlen : (t.drop 850).length = t.length - 850 := by simp
        rw [hstep]
        rw [List.chain'_cons']
        constructor
        · intro b hb
          have hne : (t.drop 850).length ≠ 0 := by omega
          obtain ⟨b', hb', htake⟩ := splitWindows_head_take (t.drop 850) hne
          rw [hb'] at hb
          have hbb : b = b' := by
            exact (Option.some.inj hb).symm
          subst hbb
          constructor
          · rw [List.drop_take, htake]
          · simp only [List.length_drop, List.length_take]
            omega
        · exact ih (t.length - 850) (by omega) (t.drop 850) hlen

end Chunker

open Chunker

/-- C5: for text of length `L` split with window `W = 1000` and overlap
`O = 150` (the parameters configured at DocumentIngestor.py:96), the number
of chunks is `0` for `L = 0`, `1` for `0 < L ≤ W`, and
`⌈(L - O)/(W - O)⌉ = (L - O + (W - O) - 1)/(W - O)` for `L > W`; consecutive
chunks overlap by exactly `O` units (every chunk but the last is a full
window whose final `O` units open the next chunk); the chunk count is
deterministic because `splitWindows` is a function of the text and the
parameters. -/
theorem splitWindows_count_and_overlap (t : List Char) :
    (t.length = 0 → (splitWindows 1000 150 t).length = 0) ∧
    (0 < t.length → t.length ≤ 1000 →
      (splitWindows 1000 150 t).length = 1) ∧
    (1000 < t.length →
      (splitWindows 1000 150 t).length = (t.length - 150 + 849) / 850) ∧
    List.Chain'
      (fun a b => a.drop 850 = b.take 150 ∧ (a.drop 850).length = 150)
      (splitWindows 1000 150 t) := by
  refine ⟨?_, ?_, ?_, splitWindows_chain t⟩
  · intro h
    rw [splitWindows_length, if_pos h]
  · intro h₀ h₁
    rw [splitWindows_length, if_neg (by omega), if_pos h₁]
  · intro h
    rw [splitWindows_length, if_neg (by omega), if_neg (by omega)]

/-- Witness for C5: empty text, a 5-character text, and a 2000-character
text (which splits into 3 chunks: `⌈(2000 - 150)/850⌉ = 3`). -/
theorem splitWindows_count_and_overlap_witness :
    (splitWindows 1000 150 []).length = 0 ∧
    (splitWindows 1000 150 "hello".data).length = 1 ∧
    (splitWindows 1000 150 (List.replicate 2000 'a')).length = 3 := by
  refine ⟨(splitWindows_count_and_overlap []).1 rfl,
    (splitWindows_count_and_overlap "hello".data).2.1 (by decide) (by decide),
    ?_⟩
  have h := (splitWindows_count_and_overlap
    (List.replicate 2000 'a')).2.2.1
    (by simp only [List.length_replicate]; norm_num)
  simp only [List.length_replicate] at h
  exact h.trans (by norm_num)

end ContractRag
